import Mathlib

/-!
Verification of the `brenoafb/filesystem` Go repository (`pkg/fs/fs.go`).

The development is a shallow embedding of the Go code:
* a Go byte slice becomes `Bytes` (a length plus a byte-lookup function,
  mirroring Go's pointer-plus-length slices);
* the `ArrayBlockDevice` storage backend becomes `Disk`, a byte-addressed
  zero-initialized store;
* every function of `fs.go` becomes a Lean definition of the same name;
  `for` loops with `break`/early `return` become fuel-indexed recursive
  helpers;
* Go runtime panics (index out of range, nil dereference,
  `bytes.Buffer.Truncate` out of range) are reified as the `FsErr.goPanic`
  error value, kept distinct from errors the Go code returns with
  `fmt.Errorf`, which are reified constructor-per-call-site in `FsErr`;
* mutation of the in-memory `FileSystem` is explicit state passing: every
  mutating operation returns its result together with the filesystem as it
  is at the moment the operation returns (also on error paths, since the Go
  code mutates through pointers before some of its error returns).
-/

/-- A Go byte slice: a length plus a byte lookup. Only indices below `len`
are meaningful; all constructions keep bytes past `len` at 0. -/
structure Bytes where
  len : Nat
  byteAt : Nat → Nat

def Bytes.empty : Bytes := ⟨0, fun _ => 0⟩

def Bytes.ofList (l : List Nat) : Bytes := ⟨l.length, fun i => l.getD i 0⟩

def Bytes.append (a b : Bytes) : Bytes :=
  ⟨a.len + b.len, fun i => if i < a.len then a.byteAt i else b.byteAt (i - a.len)⟩

/-- `b[:n]`-style truncating take (also models `bytes.Buffer.Truncate`). -/
def Bytes.take (b : Bytes) (n : Nat) : Bytes := ⟨min n b.len, b.byteAt⟩

/-- `b[n:]`-style drop. -/
def Bytes.drop (b : Bytes) (n : Nat) : Bytes := ⟨b.len - n, fun i => b.byteAt (n + i)⟩

/-- A fresh all-zero buffer, `make([]byte, n)`. -/
def Bytes.zeros (n : Nat) : Bytes := ⟨n, fun _ => 0⟩

/-- `make([]byte, n)` followed by `copy(dst, b)`: `b` zero-padded (or cut) to
length `n`. -/
def Bytes.pad (b : Bytes) (n : Nat) : Bytes :=
  ⟨n, fun i => if i < b.len then b.byteAt i else 0⟩

/-- Overwrite the region `[off, off+src.len)` of `buf` with `src`. -/
def Bytes.writeAt (buf : Bytes) (off : Nat) (src : Bytes) : Bytes :=
  ⟨buf.len, fun i => if off ≤ i ∧ i < off + src.len then src.byteAt (i - off) else buf.byteAt i⟩

def Bytes.toList (b : Bytes) : List Nat := (List.range b.len).map b.byteAt

/-- The storage backend: `ArrayBlockDevice` over a zero-initialized byte
array, addressed byte-by-byte. The demo's 32 KiB array is generalized to an
unbounded array; the backend is external to the core contract. -/
abbrev Disk := Nat → Nat

def Disk.empty : Disk := fun _ => 0

/-- `WriteBlock`: `copy(dev.buf[blockNum*4096:(blockNum+1)*4096], buf)` —
copies `min(len(buf), 4096)` bytes, leaving the rest of the block as is. -/
def Disk.writeBlock (d : Disk) (blockNum : Nat) (buf : Bytes) : Disk :=
  fun a =>
    if blockNum * 4096 ≤ a ∧ a < blockNum * 4096 + min buf.len 4096 then
      buf.byteAt (a - blockNum * 4096)
    else d a

/-- `ReadBlock` into a fresh 4096-byte buffer. -/
def Disk.readBlock (d : Disk) (blockNum : Nat) : Bytes :=
  ⟨4096, fun i => d (blockNum * 4096 + i)⟩

/-! Layout constants from `fs.go`. -/

def SuperblockIndex : Nat := 0
def InodeBitmapIndex : Nat := 1
def DataBitmapIndex : Nat := 2
def InodeStartIndex : Nat := 3
/-- As written in the source: `DataStartIndex = 3 + 3`. -/
def DataStartIndex : Nat := 3 + 3
def BlockSize : Nat := 4096
def InodeSize : Nat := 512

inductive InodeType where
  | File : InodeType
  | Directory : InodeType
deriving DecidableEq

/-- The `Inode` struct. `Type` is a Lean keyword, hence the field `Type'`.
Filenames are byte strings (`List Nat`), as Go strings are byte strings. -/
structure Inode where
  Size : Nat
  Index : Nat
  Type' : InodeType
  Blocks : List Nat
  Filename : List Nat
deriving DecidableEq

/-- The `FileSystem` struct: device plus the in-memory mirror.
`inodes` is `[32]*Inode` (empty slots are `none`), the bitmaps are
`[32]byte` arrays holding 0/1 bytes. -/
structure FileSystem where
  dev : Disk
  inodes : List (Option Inode)
  inodeBitmap : List Nat
  dataBitmap : List Nat

/-- Error values. One constructor per `fmt.Errorf` call site of `fs.go`
(wrapping with `%w` becomes a nested `FsErr`), plus `goPanic` for Go
runtime panics, which the Go code does not catch. -/
inductive FsErr where
  | notValidFilesystem : FsErr
  | errorDecodingInode (idx : Nat) : FsErr
  | inodeNotAFile (idx : Nat) : FsErr
  | invalidLineInDirectory (line : List Nat) : FsErr
  | invalidInodeIndexInDirectory (tok : List Nat) : FsErr
  | notEnoughFreeBlocksForDir : FsErr
  | errorFindingParent (e : FsErr) : FsErr
  | parentNotADirectory : FsErr
  | errorFindingFreeInode (e : FsErr) : FsErr
  | errorFindingBlocks (e : FsErr) : FsErr
  | errorWritingInodeTable (e : FsErr) : FsErr
  | errorWritingInodeContents (e : FsErr) : FsErr
  | errorAddingToDir (e : FsErr) : FsErr
  | errorReadingDirectory (seg : List Nat) (e : FsErr) : FsErr
  | directoryNotFound (seg : List Nat) : FsErr
  | filenameMustBeAbsolute : FsErr
  | noEmptyInodes : FsErr
  | notEnoughEmptyDataBlocks : FsErr
  | goPanic (site : String) : FsErr
deriving DecidableEq

deriving instance DecidableEq for Except

/-! Byte-string helpers used by the Go standard-library calls in `fs.go`. -/

/-- `bufio.Scanner` with `ScanLines`: strip a trailing carriage return. -/
def dropCR (l : List Nat) : List Nat :=
  match l.getLast? with
  | some 13 => l.dropLast
  | _ => l

def splitLinesAux : List Nat → List Nat → List (List Nat)
  | [], acc => if acc.isEmpty then [] else [dropCR acc.reverse]
  | 10 :: rest, acc => dropCR acc.reverse :: splitLinesAux rest []
  | c :: rest, acc => splitLinesAux rest (c :: acc)

/-- `bufio.Scanner` over the content: the lines, where a final token without
a trailing newline is also yielded. -/
def splitLines (l : List Nat) : List (List Nat) := splitLinesAux l []

def splitBytesAux (sep : Nat) : List Nat → List Nat → List (List Nat)
  | [], acc => [acc.reverse]
  | c :: rest, acc =>
    if c = sep then acc.reverse :: splitBytesAux sep rest []
    else splitBytesAux sep rest (c :: acc)

/-- `strings.Split(s, sep)` for a one-byte separator. -/
def splitBytes (sep : Nat) (l : List Nat) : List (List Nat) := splitBytesAux sep l []

/-- Decimal digit run, for `strconv.Atoi`; `none` on empty or non-digit. -/
def digitsToNat (l : List Nat) : Option Nat :=
  if l.isEmpty then none
  else l.foldl (fun acc c =>
    acc.bind fun a => if 48 ≤ c ∧ c ≤ 57 then some (a * 10 + (c - 48)) else none) (some 0)

/-- `strconv.Atoi`: optional sign, then decimal digits. -/
def atoi (l : List Nat) : Option Int :=
  match l with
  | 45 :: rest => (digitsToNat rest).map (fun n => -(n : Int))
  | 43 :: rest => (digitsToNat rest).map (fun n => (n : Int))
  | _ => (digitsToNat l).map (fun n => (n : Int))

def natDecimalAux : Nat → Nat → List Nat
  | 0, _ => []
  | fuel + 1, n =>
    if n < 10 then [48 + n]
    else natDecimalAux fuel (n / 10) ++ [48 + n % 10]

/-- `fmt.Sprintf("%d", n)` for a natural number. -/
def natDecimal (n : Nat) : List Nat := natDecimalAux (n + 1) n

/-! Model of `encoding/gob` for `Inode` values, the serialization library
`fs.go` uses. `gob` is Go standard-library code (not part of this
repository); it is modelled by its observable contract: `Encode` emits a
length-prefixed, self-contained message stream whose first byte is a
positive message-length byte, short for the inodes at hand (well under the
512-byte slot); `Decode` inverts `Encode` (also when followed by padding)
and fails on a stream that does not start with a valid message — in
particular on all-zero bytes, whose leading 0 length byte is invalid. -/

def u32le (n : Nat) : List Nat :=
  [n % 256, n / 256 % 256, n / 65536 % 256, n / 16777216 % 256]

def leVal (a b c d : Nat) : Nat := a + 256 * b + 65536 * c + 16777216 * d

def serializeInode (x : Inode) : List Nat :=
  u32le x.Size ++ u32le x.Index
    ++ [(match x.Type' with | .File => 0 | .Directory => 1)]
    ++ [x.Blocks.length] ++ (x.Blocks.map u32le).flatten
    ++ [x.Filename.length] ++ x.Filename

/-- `gob.NewEncoder(bb).Encode(inode)`: the bytes appended to the buffer. -/
def gobEncode (x : Inode) : Bytes :=
  Bytes.ofList ((serializeInode x).length :: serializeInode x)

def u32sOf : List Nat → List Nat
  | a :: b :: c :: d :: rest => leVal a b c d :: u32sOf rest
  | _ => []

def deserializeInode (l : List Nat) : Option Inode :=
  match l with
  | s0 :: s1 :: s2 :: s3 :: i0 :: i1 :: i2 :: i3 :: t :: nb :: rest =>
    if nb = 16 ∧ (rest.take 64).length = 64 then
      match rest.drop 64 with
      | nf :: rest2 =>
        if rest2.length = nf then
          match t with
          | 0 => some ⟨leVal s0 s1 s2 s3, leVal i0 i1 i2 i3, .File, u32sOf (rest.take 64), rest2⟩
          | 1 => some ⟨leVal s0 s1 s2 s3, leVal i0 i1 i2 i3, .Directory, u32sOf (rest.take 64), rest2⟩
          | _ => none
        else none
      | [] => none
    else none
  | _ => none

/-- `gob.NewDecoder(bytes.NewBuffer(b)).Decode(&inode)`: reads the leading
message-length byte and the message; errors (`none`) when the stream does
not start with a valid message — e.g. on a zero length byte. -/
def gobDecode (b : Bytes) : Option Inode :=
  let n := b.byteAt 0
  if n = 0 ∨ b.len < n + 1 then none
  else deserializeInode ((b.drop 1).take n).toList

/-! The filesystem operations of `fs.go`. -/

/-- `NewFileSystem` (Format): writes superblock magic (3 bytes), a 1-byte
inode bitmap `[1]`, a 1-byte data bitmap `[0]`, gob-encodes the root inode
into a fresh buffer and writes it at block 3; the in-memory state is built
from the struct literal of the source (note `dataBitmap: [32]byte{1}`).
The device model cannot fail, so no error case arises. -/
def NewFileSystem (dev : Disk) : FileSystem :=
  let dev := dev.writeBlock SuperblockIndex (Bytes.ofList [0xb0, 0xfd, 0xba])
  let dev := dev.writeBlock InodeBitmapIndex (Bytes.ofList [1])
  let dev := dev.writeBlock DataBitmapIndex (Bytes.ofList [0])
  let rootInode : Inode :=
    { Size := 0, Index := 0, Type' := .Directory,
      Blocks := List.replicate 16 0, Filename := [47] }
  let dev := dev.writeBlock InodeStartIndex (gobEncode rootInode)
  { dev := dev,
    inodes := some rootInode :: List.replicate 31 none,
    inodeBitmap := 1 :: List.replicate 31 0,
    dataBitmap := 1 :: List.replicate 31 0 }

/-- The decode loop of `LoadFilesystem`: iterates over the occupied bitmap
indices, placing the decoded inode at the *position* `pos` in the table
(the source writes `inodes[i]`, with `i` the enumeration position). -/
def loadInodes (dev : Disk) : List Nat → Nat → List (Option Inode) →
    Except FsErr (List (Option Inode))
  | [], _, table => .ok table
  | idx :: rest, pos, table =>
    let blockIndex := idx * InodeSize / BlockSize
    let blockOffset := idx * InodeSize % BlockSize
    let buf := dev.readBlock (blockIndex + 3)
    let inodeBytes := (buf.drop blockOffset).take InodeSize
    match gobDecode inodeBytes with
    | none => .error (.errorDecodingInode idx)
    | some ino => loadInodes dev rest (pos + 1) (table.set pos (some ino))

/-- `LoadFilesystem`: validate magic, read both bitmaps, decode the inode
of every occupied inode-bitmap index. -/
def LoadFilesystem (dev : Disk) : Except FsErr FileSystem :=
  let buf := dev.readBlock SuperblockIndex
  let magic := buf.byteAt 0 + buf.byteAt 1 * 256 + buf.byteAt 2 * 65536
  if magic ≠ 0xbafdb0 then .error .notValidFilesystem
  else
    let inodeBitmap := (List.range 32).map (dev.readBlock InodeBitmapIndex).byteAt
    let inodeIndices := (List.range 32).filter fun i => inodeBitmap.getD i 0 = 1
    let dataBitmap := (List.range 32).map (dev.readBlock DataBitmapIndex).byteAt
    match loadInodes dev inodeIndices 0 (List.replicate 32 none) with
    | .error e => .error e
    | .ok inodes =>
      .ok { dev := dev, inodes := inodes, inodeBitmap := inodeBitmap,
            dataBitmap := dataBitmap }

/-- The block-read loop of `ReadInodeContents`: appends whole 4096-byte
blocks, stopping at the first 0 entry of `Blocks`. -/
def readBlocksLoop (dev : Disk) : List Nat → Bytes → Bytes
  | [], bb => bb
  | blockIndex :: rest, bb =>
    if blockIndex = 0 then bb
    else readBlocksLoop dev rest (bb.append (dev.readBlock blockIndex))

/-- `ReadInodeContents`: read the blocks of the inode and truncate to its
recorded size. The unchecked `fs.inodes[inodeIndex]` access and the nil
dereference, as well as `Truncate` past the buffer length, are Go panics. -/
def ReadInodeContents (fs : FileSystem) (inodeIndex : Nat) : Except FsErr Bytes :=
  if inodeIndex < 32 then
    match fs.inodes.getD inodeIndex none with
    | none => .error (.goPanic "nil inode dereference")
    | some inode =>
      let bb := readBlocksLoop fs.dev inode.Blocks Bytes.empty
      if inode.Size ≤ bb.len then .ok (bb.take inode.Size)
      else .error (.goPanic "truncation out of range")
  else .error (.goPanic "inode table index out of range")

/-- `ReadFileContents`: type-check (`NotAFile`), then `ReadInodeContents`. -/
def ReadFileContents (fs : FileSystem) (inodeIndex : Nat) : Except FsErr Bytes :=
  if inodeIndex < 32 then
    match fs.inodes.getD inodeIndex none with
    | none => .error (.goPanic "nil inode dereference")
    | some inode =>
      if inode.Type' ≠ InodeType.File then .error (.inodeNotAFile inodeIndex)
      else ReadInodeContents fs inodeIndex
  else .error (.goPanic "inode table index out of range")

/-- The scan loop of `ReadDir`: one directory line per iteration. Each
record overwrites the `Filename` of the child's table slot (the source
mutates through the `*Inode` pointer), so the table is threaded through and
returned also when a later line fails. The child list is returned as the
list of child indices, mirroring the source's list of pointers into the
table. -/
def readDirLoop : List (List Nat) → List (Option Inode) → List Nat →
    (Except FsErr (List Nat)) × List (Option Inode)
  | [], table, acc => (.ok acc.reverse, table)
  | line :: rest, table, acc =>
    let parts := splitBytes 32 line
    if parts.length ≠ 2 then (.error (.invalidLineInDirectory line), table)
    else
      match atoi (parts.getD 0 []) with
      | none => (.error (.invalidInodeIndexInDirectory (parts.getD 0 [])), table)
      | some i =>
        if 0 ≤ i ∧ i < 32 then
          match table.getD i.toNat none with
          | none => (.error (.goPanic "nil inode dereference"), table)
          | some child =>
            readDirLoop rest (table.set i.toNat (some { child with Filename := parts.getD 1 [] }))
              (i.toNat :: acc)
        else (.error (.goPanic "inode table index out of range"), table)

/-- `ReadDir`: read the inode's contents, scan them line by line as
`index name` records. No check that the inode is a directory, and no bounds
check on the parsed index. -/
def ReadDir (fs : FileSystem) (inodeIndex : Nat) :
    (Except FsErr (List Nat)) × FileSystem :=
  match ReadInodeContents fs inodeIndex with
  | .error e => (.error e, fs)
  | .ok contents =>
    let res := readDirLoop (splitLines contents.toList) fs.inodes []
    (res.1, { fs with inodes := res.2 })

/-- The write loop of `WriteInodeContents`: iteration `i` writes
`blocks[i*4096:(i+1)*4096]` to device block `inode.Blocks[i]`; the loop
bound is the block count of the content, so `Blocks[i]` panics when the
content needs more than the 16 entries of the array. -/
def writeContentsLoop (blocks : List Nat) (data : Bytes) :
    Nat → Nat → Disk → (Except FsErr Unit) × Disk
  | _, 0, dev => (.ok (), dev)
  | i, fuel + 1, dev =>
    if i < blocks.length then
      writeContentsLoop blocks data (i + 1) fuel
        (dev.writeBlock (blocks.getD i 0) ((data.drop (i * BlockSize)).take BlockSize))
    else (.error (.goPanic "block list index out of range"), dev)

/-- `WriteInodeContents`: pad the contents to a whole number of blocks and
write them to the inode's blocks in order. -/
def WriteInodeContents (fs : FileSystem) (inodeIndex : Nat) (contents : Bytes) :
    (Except FsErr Unit) × FileSystem :=
  let nBlocks := (contents.len + BlockSize - 1) / BlockSize
  if inodeIndex < 32 then
    match fs.inodes.getD inodeIndex none with
    | none => (.error (.goPanic "nil inode dereference"), fs)
    | some inode =>
      let blocks := contents.pad (nBlocks * BlockSize)
      let res := writeContentsLoop inode.Blocks blocks 0 nBlocks fs.dev
      (res.1, { fs with dev := res.2 })
  else (.error (.goPanic "inode table index out of range"), fs)

/-- One slot of a table block in `WriteInodeTable`. The source encodes with
`gob.NewEncoder(bytes.NewBuffer(buf[j*512:(j+1)*512]))`: the buffer starts
at length 512, so `Write` appends *after* the slice — in the underlying
block array the bytes land at offset `(j+1)*512` as long as they fit the
slice's spare capacity `4096-(j+1)*512`, and are lost to a reallocation
otherwise. An empty slot leaves its region all zeros. -/
def encodeSlotIntoBuf (buf : Bytes) (j : Nat) (slot : Option Inode) : Bytes :=
  match slot with
  | none => buf
  | some inode =>
    let enc := gobEncode inode
    if (j + 1) * InodeSize + enc.len ≤ BlockSize then buf.writeAt ((j + 1) * InodeSize) enc
    else buf

/-- One 4096-byte table block of `WriteInodeTable`, holding slots
`base..base+7`. -/
def writeTableBlock (fs : FileSystem) (base : Nat) : Bytes :=
  (List.range 8).foldl (fun buf j => encodeSlotIntoBuf buf j (fs.inodes.getD (base + j) none))
    (Bytes.zeros BlockSize)

/-- `WriteInodeTable`: full rewrite of table blocks 3..6 (`i/8 + 3` for
`i = 0, 8, 16, 24`). Encoding cannot fail in the model, so the result is
always `ok`. -/
def WriteInodeTable (fs : FileSystem) : (Except FsErr Unit) × FileSystem :=
  let dev := (List.range 4).foldl (fun dev k =>
    dev.writeBlock (k * 8 / 8 + InodeStartIndex) (writeTableBlock fs (k * 8))) fs.dev
  (.ok (), { fs with dev := dev })

/-- `PersistDataBitmap`: write the 32 data-bitmap bytes to block 2. -/
def PersistDataBitmap (fs : FileSystem) : (Except FsErr Unit) × FileSystem :=
  (.ok (), { fs with dev := fs.dev.writeBlock DataBitmapIndex (Bytes.ofList fs.dataBitmap) })

/-- `PersistInodeBitmap`: write the 32 inode-bitmap bytes to block 1. -/
def PersistInodeBitmap (fs : FileSystem) : (Except FsErr Unit) × FileSystem :=
  (.ok (), { fs with dev := fs.dev.writeBlock InodeBitmapIndex (Bytes.ofList fs.inodeBitmap) })

/-- `FindFreeInode`: lowest inode-bitmap index holding 0. -/
def FindFreeInode (fs : FileSystem) : Except FsErr Nat :=
  match (List.range 32).find? (fun i => fs.inodeBitmap.getD i 0 = 0) with
  | some i => .ok i
  | none => .error .noEmptyInodes

/-- The scan loop of `FindEmptyBlocks`: collect `i + DataStartIndex` for
free bitmap indices `i`, stopping once the list length *equals* `n`
(checked only after an append, so `n = 0` with any free block collects
every free index). -/
def findEmptyBlocksLoop (bm : List Nat) (n : Nat) : Nat → Nat → List Nat → List Nat
  | 0, _, acc => acc.reverse
  | fuel + 1, i, acc =>
    if bm.getD i 0 = 0 then
      let acc' := (i + DataStartIndex) :: acc
      if acc'.length = n then acc'.reverse
      else findEmptyBlocksLoop bm n fuel (i + 1) acc'
    else findEmptyBlocksLoop bm n fuel (i + 1) acc

/-- `FindEmptyBlocks`: absolute block numbers of `n` free data blocks,
erroring when the scan did not produce exactly `n`. -/
def FindEmptyBlocks (fs : FileSystem) (n : Nat) : Except FsErr (List Nat) :=
  let dataBlockIndices := findEmptyBlocksLoop fs.dataBitmap n 32 0 []
  if dataBlockIndices.length ≠ n then .error .notEnoughEmptyDataBlocks
  else .ok dataBlockIndices

/-- The current-blocks scan of `AddFileToDir`: counts the nonzero prefix of
`Blocks` and records the index of the first zero entry; when no entry is
zero the Go variable keeps its initial value 0. -/
def countBlocksLoop : List Nat → Nat → Nat → Nat × Nat
  | [], n, _ => (n, 0)
  | b :: rest, n, i => if b = 0 then (n, i) else countBlocksLoop rest (n + 1) (i + 1)

/-- The block-growth loop of `AddFileToDir`: for each free data-bitmap
index, write `i + DataStartIndex` into `Blocks[blockEndIndex+added]` (a Go
panic when that lands past the 16-entry array), mark the bitmap bit, and
stop once `added` reaches `needed`. Returns the blocks, bitmap and `added`
as they are when the loop stops. -/
def growBlocksLoop (blockEndIndex needed : Nat) :
    Nat → Nat → Nat → List Nat → List Nat →
    (Except FsErr Unit) × List Nat × List Nat × Nat
  | 0, _, added, blocks, bm => (.ok (), blocks, bm, added)
  | fuel + 1, i, added, blocks, bm =>
    if bm.getD i 0 = 0 then
      if blockEndIndex + added < blocks.length then
        let blocks' := blocks.set (blockEndIndex + added) (i + DataStartIndex)
        let bm' := bm.set i 1
        if added + 1 = needed then (.ok (), blocks', bm', added + 1)
        else growBlocksLoop blockEndIndex needed fuel (i + 1) (added + 1) blocks' bm'
      else (.error (.goPanic "block list index out of range"), blocks, bm, added)
    else growBlocksLoop blockEndIndex needed fuel (i + 1) added blocks bm

/-- The block-growth phase of `AddFileToDir` (source lines between the
size update and the content write): scan the nonzero prefix of the
directory inode's `Blocks`, and when the appended content needs more
blocks, run the growth loop. Returns the result (`ok`, the bounds panic,
or the not-enough-free-blocks error) together with the block list and data
bitmap as the phase leaves them — partial allocations included, since the
source mutates them in place. -/
def dirGrowth (inode : Inode) (bm : List Nat) (contentsLen : Nat) :
    (Except FsErr Unit) × List Nat × List Nat :=
  let scan := countBlocksLoop inode.Blocks 0 0
  let nTotalBlocks := (contentsLen + BlockSize - 1) / BlockSize
  if nTotalBlocks ≤ scan.1 then (.ok (), inode.Blocks, bm)
  else
    let grown := growBlocksLoop scan.2 (nTotalBlocks - scan.1) 32 0 0 inode.Blocks bm
    match grown.1 with
    | .error e => (.error e, grown.2.1, grown.2.2.1)
    | .ok _ =>
      if grown.2.2.2 < nTotalBlocks - scan.1 then
        (.error .notEnoughFreeBlocksForDir, grown.2.1, grown.2.2.1)
      else (.ok (), grown.2.1, grown.2.2.1)

/-- `AddFileToDir`: append a `index name` line to the directory's content.
The directory inode's `Size` is updated *before* the growth check, and the
growth loop mutates `Blocks` and the data bitmap before the
not-enough-free-blocks error return — those in-memory mutations are kept in
the returned state, as in the source, where they happen through pointers.
On success the new content, the inode table and the data bitmap are written
to the device (the `WriteInodeTable` error is assigned but never checked in
the source). -/
def AddFileToDir (fs : FileSystem) (dirInodeIndex fileInodeIndex : Nat) :
    (Except FsErr Unit) × FileSystem :=
  if dirInodeIndex < 32 then
    match fs.inodes.getD dirInodeIndex none with
    | none => (.error (.goPanic "nil inode dereference"), fs)
    | some inode =>
      match ReadInodeContents fs dirInodeIndex with
      | .error e => (.error e, fs)
      | .ok contents0 =>
        if fileInodeIndex < 32 then
          match fs.inodes.getD fileInodeIndex none with
          | none => (.error (.goPanic "nil inode dereference"), fs)
          | some fileInode =>
            let entry := natDecimal fileInodeIndex ++ [32] ++ fileInode.Filename ++ [10]
            let contents := contents0.append (Bytes.ofList entry)
            let g := dirGrowth inode fs.dataBitmap contents.len
            let fs2 := { fs with
              inodes := fs.inodes.set dirInodeIndex
                (some { inode with Size := contents.len, Blocks := g.2.1 }),
              dataBitmap := g.2.2 }
            match g.1 with
            | .error e => (.error e, fs2)
            | .ok _ =>
              match WriteInodeContents fs2 dirInodeIndex contents with
              | (.error e, fs3) => (.error e, fs3)
              | (.ok _, fs3) =>
                let fs4 := (WriteInodeTable fs3).2
                let fs5 := (PersistDataBitmap fs4).2
                (.ok (), fs5)
        else (.error (.goPanic "inode table index out of range"), fs)
  else (.error (.goPanic "inode table index out of range"), fs)

/-- `GetRelativePathFromAbsolute`: `strings.Join(path[1:], "/")` for an
absolute path, `""` otherwise. -/
def GetRelativePathFromAbsolute (filename : List Nat) : List Nat :=
  let path := splitBytes 47 filename
  if path.getD 0 [] ≠ [] then []
  else List.intercalate [47] (path.drop 1)

/-- The segment loop of `traversePath`, starting at the root inode. Each
step runs `ReadDir` on the current inode (mutating the table) and scans the
children for the segment name; the name compared is the child's (just
overwritten) table `Filename`, read through the pointer. The returned inode
is the table slot reached at the end — `none` models the nil pointer of an
empty slot, which the source returns undereferenced. -/
def traverseLoop (fs : FileSystem) (segs : List (List Nat)) (inodeIndex : Nat) :
    (Except FsErr (Option Inode)) × FileSystem :=
  match segs with
  | [] => (.ok (fs.inodes.getD inodeIndex none), fs)
  | seg :: rest =>
    match ReadDir fs inodeIndex with
    | (.error e, fs') => (.error (.errorReadingDirectory seg e), fs')
    | (.ok children, fs') =>
      match children.find? (fun c => (fs'.inodes.getD c none).map Inode.Filename = some seg) with
      | some c => traverseLoop fs' rest c
      | none => (.error (.directoryNotFound seg), fs')

/-- `traversePath`: walk every segment after the leading empty one. -/
def traversePath (fs : FileSystem) (path : List (List Nat)) :
    (Except FsErr (Option Inode)) × FileSystem :=
  traverseLoop fs (path.drop 1) 0

/-- `FindInodeByName`: absolute-path check, then full traversal. -/
def FindInodeByName (fs : FileSystem) (filename : List Nat) :
    (Except FsErr (Option Inode)) × FileSystem :=
  let path := splitBytes 47 filename
  if path.getD 0 [] ≠ [] then (.error .filenameMustBeAbsolute, fs)
  else traversePath fs path

/-- `FindParentInodeByName`: traversal over all segments but the last. -/
def FindParentInodeByName (fs : FileSystem) (filename : List Nat) :
    (Except FsErr (Option Inode)) × FileSystem :=
  let path := splitBytes 47 filename
  if path.getD 0 [] ≠ [] then (.error .filenameMustBeAbsolute, fs)
  else traversePath fs path.dropLast

/-- The data-bitmap update of `CreateFile`: the source indexes the 32-byte
bitmap with the *absolute* block numbers returned by `FindEmptyBlocks`
(`fs.dataBitmap[blockIndex] = 1`), a Go panic once a block number reaches
32. -/
def setDataBitmapAbs : List Nat → List Nat → Option (List Nat)
  | bm, [] => some bm
  | bm, b :: rest => if b < 32 then setDataBitmapAbs (bm.set b 1) rest else none

/-- `CreateFile`: resolve the parent, allocate an inode slot and data
blocks, install and persist the inode, write the contents, persist the
bitmaps, then append the entry to the parent directory. -/
def CreateFile (fs : FileSystem) (filename : List Nat) (contents : Bytes) :
    (Except FsErr Inode) × FileSystem :=
  match FindParentInodeByName fs filename with
  | (.error e, fs') => (.error (.errorFindingParent e), fs')
  | (.ok parentOpt, fs') =>
    match parentOpt with
    | none => (.error (.goPanic "nil inode dereference"), fs')
    | some parentInode =>
      if parentInode.Type' ≠ InodeType.Directory then (.error .parentNotADirectory, fs')
      else
        match FindFreeInode fs' with
        | .error e => (.error (.errorFindingFreeInode e), fs')
        | .ok inodeIndex =>
          let nBlocks := (contents.len + BlockSize - 1) / BlockSize
          match FindEmptyBlocks fs' nBlocks with
          | .error e => (.error (.errorFindingBlocks e), fs')
          | .ok dataBlockIndices =>
            let blocksArray := dataBlockIndices.take 16
              ++ List.replicate (16 - dataBlockIndices.length) 0
            let inode : Inode :=
              { Index := inodeIndex, Type' := .File, Size := contents.len,
                Blocks := blocksArray,
                Filename := GetRelativePathFromAbsolute filename }
            let fsA := { fs' with inodes := fs'.inodes.set inodeIndex (some inode) }
            match WriteInodeTable fsA with
            | (.error e, fsB) => (.error (.errorWritingInodeTable e), fsB)
            | (.ok _, fsB) =>
              match WriteInodeContents fsB inode.Index contents with
              | (.error e, fsC) => (.error (.errorWritingInodeContents e), fsC)
              | (.ok _, fsC) =>
                let fsD := { fsC with inodeBitmap := fsC.inodeBitmap.set inodeIndex 1 }
                let fsE := (PersistInodeBitmap fsD).2
                match setDataBitmapAbs fsE.dataBitmap dataBlockIndices with
                | none => (.error (.goPanic "data bitmap index out of range"), fsE)
                | some bm =>
                  let fsF := { fsE with dataBitmap := bm }
                  let fsG := (PersistDataBitmap fsF).2
                  match AddFileToDir fsG parentInode.Index inodeIndex with
                  | (.error e, fsH) => (.error (.errorAddingToDir e), fsH)
                  | (.ok _, fsH) => (.ok inode, fsH)

/-! Concrete filesystem states used by the theorems. Byte strings:
`"/"` = `[47]`, `"/foo"` = `[47,102,111,111]`, `"/a"` = `[47,97]`,
`"b"` = `[98]`, `"f"` = `[102]`. -/

/-- A freshly formatted filesystem on an empty device. -/
def fsFmt : FileSystem := NewFileSystem Disk.empty

/-- The bytes of `"hello world"`. -/
def helloWorld : List Nat := [104, 101, 108, 108, 111, 32, 119, 111, 114, 108, 100]

/-- `CreateFile("/foo", "hello world")` on the fresh filesystem. -/
def fooCreate : (Except FsErr Inode) × FileSystem :=
  CreateFile fsFmt [47, 102, 111, 111] (Bytes.ofList helloWorld)

/-- `CreateFile("/a", "abcd")` on the fresh filesystem: the 4-byte content
makes the (clobbered) file content parse exactly as one directory record. -/
def aCreate : (Except FsErr Inode) × FileSystem :=
  CreateFile fsFmt [47, 97] (Bytes.ofList [97, 98, 99, 100])

/-- C1. The claimed persistence round-trip Format → CreateFile → Load fails
on the code: the CreateFile succeeds, but `LoadFilesystem` on the same
device errors decoding inode 0, because `WriteInodeTable` lands every gob
encoding 512 bytes past its slot (the `bytes.NewBuffer` of a full 512-byte
slice appends after it), leaving slot 0's region all zeros. -/
theorem persistence_roundtrip_load_fails :
    fooCreate.1
      = Except.ok ⟨11, 1, .File, 7 :: List.replicate 15 0, [102, 111, 111]⟩ ∧
    LoadFilesystem fooCreate.2.dev = Except.error (FsErr.errorDecodingInode 0) := by
  exact ⟨by decide, rfl⟩

/-- C2. The data region begins at absolute block 6, not 7: the source sets
`DataStartIndex = 3 + 3`, so after Format → Load (whose data bitmap is the
all-zero on-disk copy) the allocator hands out bitmap index 0 as absolute
block 6 — a block `WriteInodeTable` also writes, since 4 table blocks start
at block 3 — and on the freshly formatted state bitmap index 1 maps to
block 7, not 8 as bitmap-index + 7 would demand. -/
theorem data_region_starts_at_block_six :
    DataStartIndex = 6 ∧
    (LoadFilesystem fsFmt.dev).bind (fun fs => FindEmptyBlocks fs 1) = Except.ok [6] ∧
    FindEmptyBlocks fsFmt 1 = Except.ok [7] := by
  refine ⟨rfl, rfl, by decide⟩

/-- C3. After Format the in-memory state has exactly the root inode
occupied (index 0, Directory, size 0, name "/") and the inode bitmap agrees
with disk, but the in-memory data bitmap marks entry 0 occupied
(`dataBitmap: [32]byte{1}` in the source) while the on-disk data bitmap is
all zeros — one data block occupied in memory, none on disk. -/
theorem format_data_bitmap_disagrees_with_disk :
    fsFmt.inodes
      = some ⟨0, 0, .Directory, List.replicate 16 0, [47]⟩ :: List.replicate 31 none ∧
    fsFmt.inodeBitmap = 1 :: List.replicate 31 0 ∧
    (List.range 32).map (fsFmt.dev.readBlock InodeBitmapIndex).byteAt = fsFmt.inodeBitmap ∧
    fsFmt.dataBitmap = 1 :: List.replicate 31 0 ∧
    (List.range 32).map (fsFmt.dev.readBlock DataBitmapIndex).byteAt
      = List.replicate 32 0 := by
  refine ⟨by decide, by decide, by decide, by decide, by decide⟩

/-- C4. The CreateFile → ReadFile round-trip fails on the code: after
`CreateFile("/foo", "hello world")`, `ReadFileContents` of the new inode
returns the first 11 bytes of the *parent directory's* content
(`"1 foo\n"` plus zero padding), not `"hello world"` — `CreateFile` marks
`dataBitmap[7]` (the absolute block number) instead of bitmap index 1, so
the directory growth in `AddFileToDir` re-allocates bitmap index 1 (block
7) and overwrites the file's block. A zero-length create (length 0 is in
the claimed set) fails outright in `FindEmptyBlocks(0)`. -/
theorem create_then_read_returns_clobbered_bytes :
    fooCreate.1
      = Except.ok ⟨11, 1, .File, 7 :: List.replicate 15 0, [102, 111, 111]⟩ ∧
    (ReadFileContents fooCreate.2 1).map Bytes.toList
      = Except.ok [49, 32, 102, 111, 111, 10, 0, 0, 0, 0, 0] ∧
    [49, 32, 102, 111, 111, 10, 0, 0, 0, 0, 0] ≠ helloWorld ∧
    (CreateFile fsFmt [47, 98] (Bytes.ofList [])).1
      = Except.error (FsErr.errorFindingBlocks FsErr.notEnoughEmptyDataBlocks) := by
  refine ⟨by decide, by decide, by decide, by decide⟩

/-- A file inode named `"f"`, used as the appended child in the directory
growth scenarios. -/
def fileF : Inode := ⟨0, 1, .File, List.replicate 16 0, [102]⟩

/-- A root directory whose 16 `Blocks` entries are all nonzero and whose
size fills them exactly (16 × 4096 bytes), so that appending one directory
entry needs a 17th block. -/
def dirFull : Inode := ⟨65536, 0, .Directory, (List.range 16).map (fun k => k + 100), [47]⟩

/-- State for the block-list overflow scenario: full root directory, one
file to append, all data blocks free. -/
def fsC8 : FileSystem :=
  ⟨Disk.empty, some dirFull :: some fileF :: List.replicate 30 none,
   1 :: 1 :: List.replicate 30 0, List.replicate 32 0⟩

/-- C8. Exceeding the 16-entry block list does not fail `CapacityExceeded`:
with all 16 entries nonzero the first-zero scan of `AddFileToDir` leaves
`blockEndIndex = 0`, so the growth loop *overwrites* the occupied entry
`Blocks[0]` (here 100 becomes 6), and the subsequent content write walks
17 blocks and panics indexing `Blocks[16]` — a Go runtime panic rather than
an error. -/
theorem dir_growth_past_sixteen_blocks_panics :
    (AddFileToDir fsC8 0 1).1
      = Except.error (FsErr.goPanic "block list index out of range") ∧
    dirFull.Blocks.getD 0 0 = 100 ∧
    (growBlocksLoop 0 1 32 0 0 dirFull.Blocks fsC8.dataBitmap).2.1
      = 6 :: (List.range 15).map (fun k => k + 101) := by
  refine ⟨by decide, by decide, by decide⟩

/-- A root directory with no content, used in the exhaustion scenario. -/
def rootDir0 : Inode := ⟨0, 0, .Directory, List.replicate 16 0, [47]⟩

/-- State for the exhaustion scenario: empty root directory, one file to
append, every data-bitmap entry taken. -/
def fsC6 : FileSystem :=
  ⟨Disk.empty, some rootDir0 :: some fileF :: List.replicate 30 none,
   1 :: 1 :: List.replicate 30 0, List.replicate 32 1⟩

/-- C6 counterexample. When directory growth cannot obtain enough free
blocks, `AddFileToDir` fails with the not-enough-free-blocks error but the
in-memory state is *not* unchanged: the directory inode's recorded size has
already been updated from 0 to the appended length 4 before the error
return, contradicting the claim that the inode's size is unchanged. -/
theorem addFileToDir_exhaustion_mutates_size :
    (AddFileToDir fsC6 0 1).1 = Except.error FsErr.notEnoughFreeBlocksForDir ∧
    (fsC6.inodes.getD 0 none).map Inode.Size = some 0 ∧
    ((AddFileToDir fsC6 0 1).2.inodes.getD 0 none).map Inode.Size = some 4 := by
  refine ⟨by decide, by decide, by decide⟩

/-- The write loop of `WriteInodeContents` either succeeds or stops on the
block-list bounds panic. -/
theorem writeContentsLoop_panic_or_ok (blocks : List Nat) (data : Bytes) :
    ∀ fuel i dev, (writeContentsLoop blocks data i fuel dev).1 = Except.ok () ∨
      (writeContentsLoop blocks data i fuel dev).1
        = Except.error (FsErr.goPanic "block list index out of range") := by
  intro fuel
  induction fuel with
  | zero => intro i dev; exact Or.inl rfl
  | succ n ih =>
    intro i dev
    simp only [writeContentsLoop]
    split
    · exact ih _ _
    · exact Or.inr rfl

/-- `WriteInodeContents` either succeeds or fails with a Go panic. -/
theorem writeInodeContents_panic_or_ok (fs : FileSystem) (i : Nat) (c : Bytes) :
    (WriteInodeContents fs i c).1 = Except.ok () ∨
      ∃ s, (WriteInodeContents fs i c).1 = Except.error (FsErr.goPanic s) := by
  unfold WriteInodeContents
  split
  · split
    · exact Or.inr ⟨_, rfl⟩
    · rcases writeContentsLoop_panic_or_ok _ _ _ 0 fs.dev with h | h
      · exact Or.inl h
      · exact Or.inr ⟨_, h⟩
  · exact Or.inr ⟨_, rfl⟩

/-- `WriteInodeContents` never fails with the exhaustion error. -/
theorem writeInodeContents_not_exhausted (fs : FileSystem) (i : Nat) (c : Bytes)
    (fs3 : FileSystem)
    (h : WriteInodeContents fs i c = (Except.error FsErr.notEnoughFreeBlocksForDir, fs3)) :
    False := by
  rcases writeInodeContents_panic_or_ok fs i c with hw | ⟨s, hw⟩ <;>
    rw [h] at hw <;> simp at hw

/-- C6. Amended claim: when directory growth cannot obtain enough free
blocks, `AddFileToDir` fails with the not-enough-free-blocks error
(ResourceExhausted) and *commits nothing to disk* — the error return comes
before any device write, and the inode bitmap is untouched — but, contrary
to the original claim, the in-memory directory size, block list and data
bitmap may already be mutated (see the counterexample theorem). -/
theorem addFileToDir_exhaustion_commits_nothing_to_disk (fs : FileSystem)
    (d f : Nat) (fs' : FileSystem)
    (h : AddFileToDir fs d f = (Except.error FsErr.notEnoughFreeBlocksForDir, fs')) :
    fs'.dev = fs.dev ∧ fs'.inodeBitmap = fs.inodeBitmap := by
  simp only [AddFileToDir] at h
  split at h
  · split at h
    · simp at h
    · split at h
      · rw [Prod.mk.injEq] at h
        rw [← h.2]
        exact ⟨rfl, rfl⟩
      · split at h
        · split at h
          · simp at h
          · split at h
            · rw [Prod.mk.injEq] at h
              rw [← h.2]
              exact ⟨rfl, rfl⟩
            · split at h
              · rename_i heqW
                rw [Prod.mk.injEq] at h
                rw [h.1] at heqW
                exact (writeInodeContents_not_exhausted _ _ _ _ heqW).elim
              · simp at h
        · simp at h
  · simp at h

/-- C6 witness: the amended theorem applied to the concrete exhaustion
state. -/
theorem addFileToDir_exhaustion_witness :
    (AddFileToDir fsC6 0 1).2.dev = fsC6.dev ∧
    (AddFileToDir fsC6 0 1).2.inodeBitmap = fsC6.inodeBitmap := by
  have h1 : (AddFileToDir fsC6 0 1).1 = Except.error FsErr.notEnoughFreeBlocksForDir := by
    decide
  have h : AddFileToDir fsC6 0 1
      = (Except.error FsErr.notEnoughFreeBlocksForDir, (AddFileToDir fsC6 0 1).2) := by
    rw [← h1]
  exact addFileToDir_exhaustion_commits_nothing_to_disk fsC6 0 1 (AddFileToDir fsC6 0 1).2 h

/-- What one directory record does to the inode table in `ReadDir`: when the
line parses as `index name` with an in-range index and an occupied slot,
the slot's inode gets its `Filename` overwritten with `name`; otherwise
(the error cases of the loop) the table is left as it was. -/
def dirUpdate (table : List (Option Inode)) (line : List Nat) : List (Option Inode) :=
  let parts := splitBytes 32 line
  if parts.length ≠ 2 then table
  else
    match atoi (parts.getD 0 []) with
    | none => table
    | some i =>
      if 0 ≤ i ∧ i < 32 then
        match table.getD i.toNat none with
        | none => table
        | some child => table.set i.toNat (some { child with Filename := parts.getD 1 [] })
      else table

/-- A directory line that the `ReadDir` loop accepts against `table`:
two fields, numeric in-range index, occupied slot. -/
def lineOkB (table : List (Option Inode)) (line : List Nat) : Bool :=
  let parts := splitBytes 32 line
  parts.length = 2 &&
    match atoi (parts.getD 0 []) with
    | none => false
    | some i => decide (0 ≤ i ∧ i < 32) && (table.getD i.toNat none).isSome

/-- The scan loop of `ReadDir`, when it succeeds, leaves the table exactly
as the record-by-record `Filename` overwrite fold describes. -/
theorem readDirLoop_fold : ∀ lines table acc out table',
    readDirLoop lines table acc = (Except.ok out, table') →
    table' = lines.foldl dirUpdate table := by
  intro lines
  induction lines with
  | nil =>
    intro table acc out table' h
    simp only [readDirLoop, Prod.mk.injEq] at h
    simp [← h.2]
  | cons line rest ih =>
    intro table acc out table' h
    simp only [readDirLoop] at h
    split at h
    · simp at h
    · split at h
      · simp at h
      · split at h
        · split at h
          · simp at h
          · rename_i hlen2 hx i hatoi hrange hxs child hslot
            have hrec := ih _ _ _ _ h
            rw [hrec]
            have hstep : dirUpdate table line
                = table.set i.toNat (some { child with Filename := (splitBytes 32 line).getD 1 [] }) := by
              have hatoi' := hatoi
              have hslot' := hslot
              simp only [List.getD_eq_getElem?_getD] at hatoi' hslot'
              simp [dirUpdate, hlen2, hrange, hatoi', hslot']
            simp [List.foldl_cons, hstep]
        · simp at h

/-- C9. Every successful `ReadDir` call mutates the in-memory inode table:
the resulting table is the fold that, for each decoded `index name` record
in content order, overwrites the `Filename` of the table slot at `index`
with `name` — so `ReadDir` is not read-only on filesystem state (the
witness exhibits a call that changes a slot). The device and bitmaps are
untouched. -/
theorem readDir_mutates_child_filenames (fs : FileSystem) (idx : Nat) (cb : Bytes)
    (children : List Nat) (fs' : FileSystem)
    (hc : ReadInodeContents fs idx = Except.ok cb)
    (h : ReadDir fs idx = (Except.ok children, fs')) :
    fs'.inodes = (splitLines cb.toList).foldl dirUpdate fs.inodes ∧
    fs'.dev = fs.dev := by
  unfold ReadDir at h
  rw [hc] at h
  rw [Prod.mk.injEq] at h
  obtain ⟨h1, h2⟩ := h
  subst h2
  refine ⟨?_, rfl⟩
  have hp : readDirLoop (splitLines cb.toList) fs.inodes []
      = (Except.ok children, (readDirLoop (splitLines cb.toList) fs.inodes []).2) := by
    rw [← h1]
  exact readDirLoop_fold _ _ _ _ _ hp

/-- A file inode named `"a"` at slot 1. -/
def fileA : Inode := ⟨0, 1, .File, List.replicate 16 0, [97]⟩

/-- A root directory whose content block 7 holds the record `"1 b\n"`,
naming child 1 `b` while its table slot says `a`. -/
def rootC9 : Inode := ⟨4, 0, .Directory, 7 :: List.replicate 15 0, [47]⟩

/-- State for the `ReadDir` mutation witness. -/
def fsC9 : FileSystem :=
  ⟨Disk.empty.writeBlock 7 (Bytes.ofList [49, 32, 98, 10]),
   some rootC9 :: some fileA :: List.replicate 30 none,
   1 :: 1 :: List.replicate 30 0, 0 :: 1 :: List.replicate 30 0⟩

/-- C9 witness: a successful `ReadDir` whose record renames child 1 from
`"a"` to `"b"`, changing the inode table. -/
theorem readDir_mutates_child_filenames_witness :
    (ReadDir fsC9 0).2.inodes
      = (splitLines ((ReadInodeContents fsC9 0).toOption.getD Bytes.empty).toList).foldl
          dirUpdate fsC9.inodes ∧
    (ReadDir fsC9 0).2.inodes.getD 1 none ≠ fsC9.inodes.getD 1 none := by
  have hc : ReadInodeContents fsC9 0
      = Except.ok ((ReadInodeContents fsC9 0).toOption.getD Bytes.empty) := rfl
  have h1 : (ReadDir fsC9 0).1 = Except.ok [1] := by decide
  have h : ReadDir fsC9 0 = (Except.ok [1], (ReadDir fsC9 0).2) := by rw [← h1]
  exact ⟨(readDir_mutates_child_filenames fsC9 0 _ [1] _ hc h).1, by decide⟩

/-- Overwriting any slot with an occupied entry preserves occupancy of
every slot. -/
theorem getD_set_isSome (table : List (Option Inode)) : ∀ (k j : Nat) (v : Inode),
    (table.getD j none).isSome = true →
    ((table.set k (some v)).getD j none).isSome = true := by
  induction table with
  | nil => intro k j v h; simp [List.getD] at h
  | cons a rest ih =>
    intro k j v h
    cases k with
    | zero =>
      cases j with
      | zero => simp
      | succ j => simpa using h
    | succ k =>
      cases j with
      | zero => simpa using h
      | succ j => simpa using ih k j v (by simpa using h)

/-- `lineOkB` is stable under the `Filename` overwrites the loop performs:
they keep every occupied slot occupied. -/
theorem lineOkB_set (table : List (Option Inode)) (k : Nat) (v : Inode) (line : List Nat)
    (h : lineOkB table line = true) : lineOkB (table.set k (some v)) line = true := by
  simp only [lineOkB, Bool.and_eq_true, decide_eq_true_eq] at h ⊢
  obtain ⟨h1, h2⟩ := h
  refine ⟨h1, ?_⟩
  cases hA : atoi ((splitBytes 32 line).getD 0 []) with
  | none => rw [hA] at h2; simp at h2
  | some i =>
    rw [hA] at h2
    simp only [Bool.and_eq_true, decide_eq_true_eq] at h2 ⊢
    exact ⟨h2.1, getD_set_isSome table k i.toNat v h2.2⟩

/-- The scan loop of `ReadDir` succeeds whenever every line is accepted
against the starting table: acceptance depends on the table only through
slot occupancy, which the loop's `Filename` overwrites preserve. -/
theorem readDirLoop_ok_of_all_ok : ∀ lines table acc,
    (∀ line ∈ lines, lineOkB table line = true) →
    ∃ out table', readDirLoop lines table acc = (Except.ok out, table') := by
  intro lines
  induction lines with
  | nil => intro table acc _; exact ⟨acc.reverse, table, rfl⟩
  | cons line rest ih =>
    intro table acc hall
    have hline := hall line (by simp)
    simp only [lineOkB, Bool.and_eq_true, decide_eq_true_eq] at hline
    obtain ⟨h1, h2⟩ := hline
    simp only [readDirLoop]
    rw [if_neg (by simp [h1])]
    cases hA : atoi ((splitBytes 32 line).getD 0 []) with
    | none => rw [hA] at h2; simp at h2
    | some i =>
      rw [hA] at h2
      simp only [Bool.and_eq_true, decide_eq_true_eq] at h2
      simp only [hA]
      rw [if_pos h2.1]
      cases hS : table.getD i.toNat none with
      | none => rw [hS] at h2; simp at h2
      | some child =>
        simp only [hS]
        exact ih _ _ (fun l hl => lineOkB_set table i.toNat _ l (hall l (by simp [hl])))

/-- C5 counterexample. `ReadDir` does not fail `NotADirectory` on a
non-directory inode: after `CreateFile("/a", "abcd")` the inode at slot 1
is a File whose (clobbered) content `"1 a\n"` parses as a directory record,
and `ReadDir` on it *succeeds*, returning that child — contradicting the
claim that `ReadDir` never succeeds on a File inode. -/
theorem readDir_succeeds_on_file_inode :
    (aCreate.2.inodes.getD 1 none).map Inode.Type' = some InodeType.File ∧
    (ReadDir aCreate.2 1).1 = Except.ok [1] := by
  refine ⟨by decide, by decide⟩

/-- C5. Amended claim: `ReadDirectory` performs no inode-type check at all.
On *any* inode — in particular a File inode — it reads the content and
succeeds exactly when every content line parses as an `index name` record
with an in-range, occupied child index; `NotADirectory` is never issued. -/
theorem readDir_no_type_check (fs : FileSystem) (i : Nat) (ino : Inode) (cb : Bytes)
    (hslot : fs.inodes.getD i none = some ino)
    (hfile : ino.Type' = InodeType.File)
    (hc : ReadInodeContents fs i = Except.ok cb)
    (hok : ∀ line ∈ splitLines cb.toList, lineOkB fs.inodes line = true) :
    ∃ children fs', ReadDir fs i = (Except.ok children, fs') := by
  obtain ⟨out, table', h⟩ := readDirLoop_ok_of_all_ok (splitLines cb.toList) fs.inodes [] hok
  refine ⟨out, { fs with inodes := table' }, ?_⟩
  unfold ReadDir
  simp [hc, h]

/-- C5 witness: the amended theorem applied to the File inode produced by
`CreateFile("/a", "abcd")`. -/
theorem readDir_no_type_check_witness :
    ∃ children fs', ReadDir aCreate.2 1 = (Except.ok children, fs') := by
  have hc : ReadInodeContents aCreate.2 1
      = Except.ok ((ReadInodeContents aCreate.2 1).toOption.getD Bytes.empty) := rfl
  exact readDir_no_type_check aCreate.2 1 ⟨4, 1, .File, 7 :: List.replicate 15 0, [97]⟩
    ((ReadInodeContents aCreate.2 1).toOption.getD Bytes.empty)
    (by decide) (by decide) hc (by decide)

/-- Reaching a record whose parsed index is out of `[0, 32)` — after any
prefix of accepted records — makes the `ReadDir` scan loop stop with the
table-index panic, not with a decode error. -/
theorem readDirLoop_oob : ∀ (pre : List (List Nat)) (table : List (Option Inode))
    (acc : List Nat) (line : List Nat) (rest : List (List Nat)) (a b : List Nat) (i : Int),
    (∀ l ∈ pre, lineOkB table l = true) →
    splitBytes 32 line = [a, b] →
    atoi a = some i →
    ¬(0 ≤ i ∧ i < 32) →
    (readDirLoop (pre ++ line :: rest) table acc).1
      = Except.error (FsErr.goPanic "inode table index out of range") := by
  intro pre
  induction pre with
  | nil =>
    intro table acc line rest a b i _ hsplit hnum hoob
    simp only [List.nil_append, readDirLoop, hsplit, List.getD_cons_zero]
    rw [if_neg (by simp)]
    simp only [hnum]
    rw [if_neg hoob]
  | cons l pre ih =>
    intro table acc line rest a b i hall hsplit hnum hoob
    have hl := hall l (by simp)
    simp only [lineOkB, Bool.and_eq_true, decide_eq_true_eq] at hl
    obtain ⟨h1, h2⟩ := hl
    simp only [List.cons_append, readDirLoop]
    rw [if_neg (by simp [h1])]
    cases hA : atoi ((splitBytes 32 l).getD 0 []) with
    | none => rw [hA] at h2; simp at h2
    | some j =>
      rw [hA] at h2
      simp only [Bool.and_eq_true, decide_eq_true_eq] at h2
      simp only [hA]
      rw [if_pos h2.1]
      cases hS : table.getD j.toNat none with
      | none => rw [hS] at h2; simp at h2
      | some child =>
        simp only [hS]
        exact ih _ _ _ _ _ _ _
          (fun l2 hl2 => lineOkB_set table j.toNat _ l2 (hall l2 (by simp [hl2])))
          hsplit hnum hoob

/-- C10. `ReadDir` indexes the inode table with the parsed record index
without a bounds check: when the content decodes to a prefix of accepted
records followed by a well-formed `index name` record whose index is
outside `[0, 32)`, the call stops with the out-of-range table-access panic
— it is not rejected as a malformed-record `SerializationError`. -/
theorem readDir_unchecked_child_index (fs : FileSystem) (idx : Nat) (cb : Bytes)
    (pre : List (List Nat)) (line : List Nat) (rest : List (List Nat))
    (a b : List Nat) (i : Int)
    (hc : ReadInodeContents fs idx = Except.ok cb)
    (hlines : splitLines cb.toList = pre ++ line :: rest)
    (hpre : ∀ l ∈ pre, lineOkB fs.inodes l = true)
    (hsplit : splitBytes 32 line = [a, b])
    (hnum : atoi a = some i)
    (hoob : ¬(0 ≤ i ∧ i < 32)) :
    (ReadDir fs idx).1 = Except.error (FsErr.goPanic "inode table index out of range") ∧
    ∀ tok, (ReadDir fs idx).1 ≠ Except.error (FsErr.invalidInodeIndexInDirectory tok) := by
  have hmain : (ReadDir fs idx).1
      = Except.error (FsErr.goPanic "inode table index out of range") := by
    unfold ReadDir
    simp only [hc]
    rw [hlines]
    exact readDirLoop_oob pre fs.inodes [] line rest a b i hpre hsplit hnum hoob
  refine ⟨hmain, fun tok h => ?_⟩
  rw [hmain] at h
  simp at h

/-- A root directory whose content block holds the record `"32 b\n"`:
well-formed, but naming the out-of-range child index 32. -/
def rootC10 : Inode := ⟨5, 0, .Directory, 7 :: List.replicate 15 0, [47]⟩

/-- State for the unchecked-child-index witness. -/
def fsC10 : FileSystem :=
  ⟨Disk.empty.writeBlock 7 (Bytes.ofList [51, 50, 32, 98, 10]),
   some rootC10 :: List.replicate 31 none,
   1 :: List.replicate 31 0, 0 :: 1 :: List.replicate 30 0⟩

/-- C10 witness: `ReadDir` on the directory holding `"32 b"` panics with
the out-of-range table access. -/
theorem readDir_unchecked_child_index_witness :
    (ReadDir fsC10 0).1 = Except.error (FsErr.goPanic "inode table index out of range") := by
  have hc : ReadInodeContents fsC10 0
      = Except.ok ((ReadInodeContents fsC10 0).toOption.getD Bytes.empty) := rfl
  exact (readDir_unchecked_child_index fsC10 0 _ [] [51, 50, 32, 98] [] [51, 50] [98] 32
    hc (by decide) (by simp) (by decide) (by decide) (by decide)).1

/-- C7 counterexample. Resolving `"/a/b"` when `a` exists but is a File
does *not* fail `NotADirectory`: after `CreateFile("/a", "abcd")` the
traversal descends into the file's bytes as if they were a directory and
fails `directoryNotFound "b"` — a NotFound error for the next segment. -/
theorem resolve_file_segment_not_notadirectory :
    (aCreate.2.inodes.getD 1 none).map Inode.Type' = some InodeType.File ∧
    (FindInodeByName aCreate.2 [47, 97, 47, 98]).1
      = Except.error (FsErr.directoryNotFound [98]) := by
  refine ⟨by decide, by decide⟩

/-- C7. Amended claim: `Resolve("/a/b")` fails NotFound (`directory a not
found`) whenever reading the root directory succeeds with no child named
`"a"`; but when `a` exists as a File, the traversal performs no type check
— it recurses into the file's content as directory data (failing NotFound
for `b`, or a parse error, or even succeeding), never `NotADirectory`. -/
theorem resolve_notfound_and_file_descends :
    (∀ (fs : FileSystem) (children : List Nat) (fs' : FileSystem),
      ReadDir fs 0 = (Except.ok children, fs') →
      (∀ c ∈ children, (fs'.inodes.getD c none).map Inode.Filename ≠ some [97]) →
      (FindInodeByName fs [47, 97, 47, 98]).1
        = Except.error (FsErr.directoryNotFound [97])) ∧
    (FindInodeByName aCreate.2 [47, 97, 47, 98]).1
      = Except.error (FsErr.directoryNotFound [98]) := by
  constructor
  · intro fs children fs' hrd hnone
    have hfind : children.find?
        (fun c => (fs'.inodes.getD c none).map Inode.Filename = some [97]) = none := by
      rw [List.find?_eq_none]
      intro c hc
      simpa using hnone c hc
    simp only [FindInodeByName]
    rw [if_neg (by decide)]
    simp only [traversePath]
    rw [show (splitBytes 47 [47, 97, 47, 98]).drop 1 = [[97], [98]] from rfl]
    simp only [traverseLoop, hrd, hfind]
  · decide

/-- C7 witness: the amended theorem applied to the freshly formatted
filesystem (no child `a`) and to the state with `a` created as a File. -/
theorem resolve_notfound_and_file_descends_witness :
    (FindInodeByName fsFmt [47, 97, 47, 98]).1
      = Except.error (FsErr.directoryNotFound [97]) ∧
    (FindInodeByName aCreate.2 [47, 97, 47, 98]).1
      = Except.error (FsErr.directoryNotFound [98]) := by
  have h1 : (ReadDir fsFmt 0).1 = Except.ok [] := by decide
  have h : ReadDir fsFmt 0 = (Except.ok [], (ReadDir fsFmt 0).2) := by rw [← h1]
  exact ⟨resolve_notfound_and_file_descends.1 fsFmt [] (ReadDir fsFmt 0).2 h (by simp),
    resolve_notfound_and_file_descends.2⟩
